import Mathlib

/-!
Verification development for the `codex-local` multi-agent orchestration core.

This file gives a shallow embedding, in Lean 4, of the parts of the Rust
source that the specification talks about:

* the output budgeter that the child-event monitor runs inline
  (`codex-rs/core/src/tools/handlers/spawn_agent.rs`, the
  `AgentMessageDelta` / `AgentMessage` arms of the monitor loop);
* the progress throttler of the same monitor loop;
* the monitor loop itself as a step function over a list of child events,
  including its terminal-event resolution and registry teardown;
* the `return_progress` tool handler
  (`codex-rs/core/src/tools/handlers/return_progress.rs`);
* the standalone `OutputTruncator`
  (`codex-rs/orchestrator/src/truncation.rs`);
* profile selection (`codex-rs/orchestrator/src/profiles.rs`).

Rust machine integers are embedded as `Nat` (all the counters here are
`usize` values that stay far below any overflow boundary: they are capped at
5000 or are string lengths); Rust `String::len` (UTF-8 byte length) is
embedded as an explicit byte-length function over the character sequence;
`Instant` timestamps are embedded as `Nat` milliseconds supplied with each
event; fallible handlers return `Except`/`Option`.  JSON payloads built with
`serde_json::json!` and immediately serialized are embedded as a small
field-list value (`JsonLeaf`), leaving the concrete serialization out of
scope since no claim mentions it.
-/

/-- UTF-8 encoded size in bytes of one Unicode scalar value, as Rust counts
it inside `String::len`. -/
def charUtf8Len (c : Char) : Nat :=
  if c.toNat < 0x80 then 1
  else if c.toNat < 0x800 then 2
  else if c.toNat < 0x10000 then 3
  else 4

/-- Embedding of Rust `str::len`: the UTF-8 byte length of a string. -/
def utf8Len (s : String) : Nat :=
  (s.data.map charUtf8Len).sum

/-- First `n` characters (Unicode scalar values) of a string; embedding of
Rust `s.chars().take(n).collect::<String>()`. -/
def takeChars (s : String) (n : Nat) : String :=
  String.mk (s.data.take n)

/-- Last `n` characters of a string; embedding of the Rust idiom
`s.chars().rev().take(n).collect::<String>().chars().rev().collect()`. -/
def lastChars (s : String) (n : Nat) : String :=
  String.mk ((s.data.reverse.take n).reverse)

/-- Embedding of Rust `str::contains('\n')`. -/
def hasNewline (s : String) : Bool :=
  s.data.any (fun c => c == '\n')

/-- `OUTPUT_TOKEN_LIMIT` from `spawn_agent.rs` line 202 (the same value as
`codex-rs/orchestrator/src/truncation.rs` line 4). -/
def OUTPUT_TOKEN_LIMIT : Nat := 5000

/-- The truncation marker appended by the monitor's budgeter
(`spawn_agent.rs` lines 266-267 and 304-305). -/
def truncMarker : String := "\n\n[Output truncated at 5k token limit]"

/-- The message returned by `OutputTruncator::truncate_if_needed` when the
limit has already been reached (`truncation.rs` line 36). -/
def atLimitMessage : String := "\n[Output truncated at 5k token limit]"

/-- Embedding of `len().div_ceil(4)`, the token estimate used at
`spawn_agent.rs` lines 250 and 297 and `truncation.rs` line 26.  Rust
`usize::div_ceil(4)` is `(n + 3) / 4`; `len()` is the UTF-8 byte length. -/
def estimate_tokens (s : String) : Nat :=
  (utf8Len s + 3) / 4

/-- The budget-relevant local state of the monitor loop in
`spawn_agent.rs` lines 203-205 (`accumulated_output`, `output_token_count`,
`truncated`), extended with the ghost counter `markerAppends` that counts
how many times the loop has pushed `truncMarker` onto
`accumulated_output`. -/
structure BudgetState where
  accumulated : String
  tokenCount : Nat
  truncated : Bool
  markerAppends : Nat
  deriving Repr, DecidableEq

/-- The `AgentMessageDelta` budget logic, `spawn_agent.rs` lines 249-270.
Returns the text that was appended to `accumulated_output` together with
the updated state. -/
def admitDelta (b : BudgetState) (delta : String) : String × BudgetState :=
  if b.truncated then ("", b)
  else
    let deltaTokens := estimate_tokens delta
    if b.tokenCount + deltaTokens ≤ OUTPUT_TOKEN_LIMIT then
      (delta,
        { b with
          accumulated := b.accumulated ++ delta
          tokenCount := b.tokenCount + deltaTokens })
    else
      let remainingTokens := OUTPUT_TOKEN_LIMIT - b.tokenCount
      let remainingChars := remainingTokens * 4
      let headPart := if remainingChars > 0 then takeChars delta remainingChars else ""
      let appended := headPart ++ truncMarker
      (appended,
        { accumulated := b.accumulated ++ appended
          tokenCount := OUTPUT_TOKEN_LIMIT
          truncated := true
          markerAppends := b.markerAppends + 1 })

/-- The `AgentMessage` budget logic, `spawn_agent.rs` lines 296-308.
Returns the text appended to `accumulated_output` and the new state. -/
def admitMessage (b : BudgetState) (message : String) : String × BudgetState :=
  if b.truncated then ("", b)
  else
    let msgTokens := estimate_tokens message
    if b.tokenCount + msgTokens ≤ OUTPUT_TOKEN_LIMIT then
      (message ++ "\n",
        { b with
          accumulated := b.accumulated ++ message ++ "\n"
          tokenCount := b.tokenCount + msgTokens })
    else
      (truncMarker,
        { accumulated := b.accumulated ++ truncMarker
          tokenCount := OUTPUT_TOKEN_LIMIT
          truncated := true
          markerAppends := b.markerAppends + 1 })

/-- Throttler state of the monitor loop, `spawn_agent.rs` lines 207-209:
`progress_buffer` and `last_progress_emit` (milliseconds). -/
structure ThrottleState where
  buffer : String
  lastEmit : Nat
  deriving Repr, DecidableEq

/-- The throttling logic of the `AgentMessageDelta` arm, `spawn_agent.rs`
lines 272-292.  `now` is the millisecond timestamp at which the delta is
processed; `progress_interval` is 900 ms, the hard flush size 500 bytes and
the tail window 400 characters, as in the source. -/
def offerDelta (st : ThrottleState) (delta : String) (now : Nat) :
    Option String × ThrottleState :=
  let buf := st.buffer ++ delta
  let shouldFlush :=
    hasNewline buf || decide (utf8Len buf > 500) || decide (900 ≤ now - st.lastEmit)
  if shouldFlush then
    let snippet := if utf8Len buf > 400 then lastChars buf 400 else buf
    (some snippet, { buffer := "", lastEmit := now })
  else
    (none, { buffer := buf, lastEmit := st.lastEmit })

/-- `OutputTruncator` state, `codex-rs/orchestrator/src/truncation.rs`
lines 8-12.  This standalone utility is not exported by the orchestrator's
`lib.rs` and is exercised only by tests; the live budgeter on the spawn
path is the inline logic embedded above. -/
structure OutputTruncator where
  limit : Nat
  accumulatedTokens : Nat
  deriving Repr, DecidableEq

/-- `OutputTruncator::new`, `truncation.rs` lines 15-20. -/
def OutputTruncator.new (limit : Nat) : OutputTruncator :=
  { limit := limit, accumulatedTokens := 0 }

/-- Embedding of Rust `str::lines()`: split on `'\n'`, drop a trailing
empty segment, and strip one trailing `'\r'` from each line. -/
def rustLines (s : String) : List String :=
  if s = "" then []
  else
    let parts := s.splitOn "\n"
    let parts := if parts.getLast? = some "" then parts.dropLast else parts
    parts.map (fun l => if l.endsWith "\r" then l.dropRight 1 else l)

/-- The line-collection loop of `OutputTruncator::truncate_if_needed`,
`truncation.rs` lines 49-62: whole lines are appended while they fit in
`remaining` characters (`line.len() + 1` each), joined by `'\n'`. -/
def truncLinesLoop : List String → String → Nat → Nat → String
  | [], acc, _, _ => acc
  | l :: ls, acc, used, remaining =>
    let lineLen := utf8Len l + 1
    if used + lineLen > remaining then acc
    else
      let acc2 := if acc = "" then acc ++ l else acc ++ "\n" ++ l
      truncLinesLoop ls acc2 (used + lineLen) remaining

/-- `OutputTruncator::truncate_if_needed`, `truncation.rs` lines 31-68.
Returns the produced content, the truncation flag, and the new state. -/
def OutputTruncator.truncate_if_needed (t : OutputTruncator) (content : String) :
    String × Bool × OutputTruncator :=
  let contentTokens := estimate_tokens content
  if t.limit ≤ t.accumulatedTokens then
    (atLimitMessage, true, t)
  else if t.accumulatedTokens + contentTokens ≤ t.limit then
    (content, false, { t with accumulatedTokens := t.accumulatedTokens + contentTokens })
  else
    let remainingTokens := t.limit - t.accumulatedTokens
    let remainingChars := remainingTokens * 4
    let collected := truncLinesLoop (rustLines content) "" 0 remainingChars
    (collected ++ truncMarker, true, { t with accumulatedTokens := t.limit })

/-- Fallback body choice on `TaskComplete`, `spawn_agent.rs` lines 354-360:
the accumulated output if non-empty, else the event's `last_agent_message`
or the monitor's `last_message`, else the default sentence. -/
def taskCompleteFallback (accumulated : String)
    (lastAgentMessage lastMessage : Option String) : String :=
  if accumulated ≠ "" then accumulated
  else
    (lastAgentMessage.or lastMessage).getD
      "Child agent completed without returning a message."

/-- Summary body on `TaskComplete`, `spawn_agent.rs` lines 362-365: the
bridge's `final_markdown` if set, else the fallback. -/
def taskCompleteBody (bridgeFinal : Option String) (fallback : String) : String :=
  bridgeFinal.getD fallback

/-- Bridge `final_markdown` after `TaskComplete`, `spawn_agent.rs` lines
366-368: set to the body when it was unset, untouched otherwise. -/
def taskCompleteNewFinal (bridgeFinal : Option String) (body : String) : Option String :=
  if bridgeFinal.isNone then some body else bridgeFinal

/-- Success heading on `TaskComplete`, `spawn_agent.rs` lines 370-376. -/
def taskCompleteHeading (agentId : String) (truncated : Bool)
    (bridgeFinal : Option String) : String :=
  if truncated && bridgeFinal.isNone then
    "### Subagent `" ++ agentId ++ "` ✅ (output truncated to 5k tokens)"
  else
    "### Subagent `" ++ agentId ++ "` ✅"

/-- `TurnAbortReason`, matched at `spawn_agent.rs` lines 488-498. -/
inductive TurnAbortReason where
  | interrupted
  | replaced
  | reviewEnded
  deriving Repr, DecidableEq

/-- Reason text mapping, `spawn_agent.rs` lines 488-498. -/
def abortReasonText : TurnAbortReason → String
  | .interrupted => "interrupted by user"
  | .replaced => "replaced by another task"
  | .reviewEnded => "review ended"

/-- The child-event payloads the monitor loop matches on
(`spawn_agent.rs` lines 243-556).  `execCommandBegin` carries the already
Debug-rendered command; `tokenCount` carries the percentage the source
computes from the token info when the context window is known. -/
inductive ChildEventMsg where
  | taskStarted
  | agentMessageDelta (delta : String)
  | agentMessage (message : String)
  | execCommandBegin (commandDebug : String) (cwd : String)
  | execCommandEnd (exitCode : Int)
  | mcpToolCallBegin (server : String) (tool : String)
  | mcpToolCallEnd (server : String) (tool : String) (isSuccess : Bool)
  | tokenCount (contextLeftPct : Option Nat)
  | taskComplete (lastAgentMessage : Option String)
  | errorEvent (message : String)
  | turnAborted (reason : TurnAbortReason)
  | otherEvent
  deriving Repr, DecidableEq

/-- One event drawn from the child's stream, tagged with the millisecond
instant at which the monitor processes it. -/
structure MonitorEvent where
  msg : ChildEventMsg
  now : Nat
  deriving Repr, DecidableEq

/-- Events the monitor sends to the parent session's sink. -/
inductive EmittedEvent where
  | agentEvent (id : String) (agentId : String) (inner : ChildEventMsg)
  | agentProgress (id : String) (agentId : String) (message : String)
  | agentCompleted (id : String) (agentId : String) (success : Bool) (summary : String)
  | backgroundEvent (id : String) (message : String)
  deriving Repr, DecidableEq

/-- Mutable bridge state, `codex-rs/core/src/child_agent_bridge.rs`
lines 6-10. -/
structure BridgeState where
  lastProgress : Option String
  finalMarkdown : Option String
  deriving Repr, DecidableEq

/-- The outcome value sent over the oneshot channel, `spawn_agent.rs`
lines 189-194. -/
structure SubagentOutcome where
  success : Bool
  markdown : String
  injectedIntoTurn : Bool
  deriving Repr, DecidableEq

/-- Ambient data of one monitor task: the ids captured at spawn time,
whether `inject_input` succeeds, the initial bridge-registry contents and
the initial `last_progress_emit` instant. -/
structure MonitorEnv where
  agentId : String
  parentSubId : String
  convId : Nat
  injectOk : Bool
  startRegistry : List Nat
  startTime : Nat
  deriving Repr, DecidableEq

/-- Full state of one monitor task, plus the conversation-manager bridge
registry it tears down (keyed by conversation id). -/
structure MonitorState where
  budget : BudgetState
  throttle : ThrottleState
  lastMessage : Option String
  bridge : BridgeState
  registry : List Nat
  emitted : List EmittedEvent
  outcome : Option SubagentOutcome
  deriving Repr, DecidableEq

/-- `remove_child_agent_bridge`: the registry no longer maps the removed
conversation id. -/
def registryRemove (convId : Nat) (r : List Nat) : List Nat :=
  r.filter (fun x => x != convId)

/-- The `emit_progress` closure, `spawn_agent.rs` lines 212-224. -/
def emitProgressEv (env : MonitorEnv) (s : MonitorState) (text : String) : MonitorState :=
  { s with emitted := s.emitted ++ [EmittedEvent.agentProgress env.parentSubId env.agentId text] }

/-- Common tail of the three terminal arms (`spawn_agent.rs` lines
380-429, 435-485, 504-553): emit `AgentCompleted`, attempt injection with
a `BackgroundEvent` fallback, send the outcome, remove the bridge. -/
def finishTerminal (env : MonitorEnv) (s : MonitorState) (success : Bool)
    (summary : String) (backgroundMsg : String) : MonitorState :=
  let s1 := { s with
    emitted := s.emitted ++ [EmittedEvent.agentCompleted env.parentSubId env.agentId success summary] }
  let injected := env.injectOk
  let s2 :=
    if injected then s1
    else { s1 with emitted := s1.emitted ++ [EmittedEvent.backgroundEvent env.parentSubId backgroundMsg] }
  { s2 with
    outcome := some { success := success, markdown := summary, injectedIntoTurn := injected }
    registry := registryRemove env.convId s2.registry }

/-- One iteration of the monitor loop, `spawn_agent.rs` lines 226-557.
Every event is first forwarded wrapped as an `AgentEvent`; the returned
`Bool` is `false` exactly when the arm executes `break`. -/
def stepEvent (env : MonitorEnv) (s0 : MonitorState) (e : MonitorEvent) :
    MonitorState × Bool :=
  let s := { s0 with
    emitted := s0.emitted ++ [EmittedEvent.agentEvent env.parentSubId env.agentId e.msg] }
  match e.msg with
  | .taskStarted => (emitProgressEv env s "started", true)
  | .agentMessageDelta delta =>
      let s1 := { s with budget := (admitDelta s.budget delta).2 }
      let flushed := offerDelta s1.throttle delta e.now
      let s2 := { s1 with throttle := flushed.2 }
      (match flushed.1 with
       | some snippet => (emitProgressEv env s2 snippet, true)
       | none => (s2, true))
  | .agentMessage m =>
      let s1 := { s with budget := (admitMessage s.budget m).2 }
      let s2 := { s1 with lastMessage := some m }
      (emitProgressEv env s2 m, true)
  | .execCommandBegin cmd cwd =>
      (emitProgressEv env s ("exec: " ++ cmd ++ " in " ++ cwd), true)
  | .execCommandEnd code =>
      (emitProgressEv env s ("exec: exit " ++ toString code), true)
  | .mcpToolCallBegin server tool =>
      (emitProgressEv env s ("tool: " ++ server ++ "." ++ tool), true)
  | .mcpToolCallEnd server tool ok =>
      (emitProgressEv env s
        ("tool: " ++ server ++ "." ++ tool ++ " " ++ (if ok then "ok" else "failed")), true)
  | .tokenCount pct =>
      (match pct with
       | some p => (emitProgressEv env s ("context left: " ++ toString p ++ "%"), true)
       | none => (s, true))
  | .taskComplete lastAgentMessage =>
      let fallback := taskCompleteFallback s.budget.accumulated lastAgentMessage s.lastMessage
      let bridgeFinal := s.bridge.finalMarkdown
      let body := taskCompleteBody bridgeFinal fallback
      let s1 := { s with bridge :=
        { s.bridge with finalMarkdown := taskCompleteNewFinal bridgeFinal body } }
      let heading := taskCompleteHeading env.agentId s1.budget.truncated bridgeFinal
      let summary := heading ++ "\n\n" ++ body
      (finishTerminal env s1 true summary
        ("Subagent " ++ env.agentId ++
          " completed but results could not be injected. Results: " ++ body), false)
  | .errorEvent msg =>
      let errorMessage := "### Subagent `" ++ env.agentId ++ "` ❌\n\n" ++ msg
      (finishTerminal env s false errorMessage
        ("Subagent " ++ env.agentId ++ " failed: " ++ msg), false)
  | .turnAborted reason =>
      let abortMessage := "### Subagent `" ++ env.agentId ++ "` ⚠️\n\nThe subagent was " ++
        abortReasonText reason ++ "."
      (finishTerminal env s false abortMessage
        ("Subagent " ++ env.agentId ++ " aborted: " ++ abortReasonText reason), false)
  | .otherEvent => (s, true)

/-- Initial monitor-local state, `spawn_agent.rs` lines 201-210. -/
def initMonitorState (env : MonitorEnv) : MonitorState :=
  { budget := { accumulated := "", tokenCount := 0, truncated := false, markerAppends := 0 }
    throttle := { buffer := "", lastEmit := env.startTime }
    lastMessage := none
    bridge := { lastProgress := none, finalMarkdown := none }
    registry := env.startRegistry
    emitted := []
    outcome := none }

/-- The monitor loop over the child's event stream; the list ending models
`next_event()` returning an error (stream closed). -/
def processEvents (env : MonitorEnv) : MonitorState → List MonitorEvent → MonitorState
  | s, [] => s
  | s, e :: rest =>
      let r := stepEvent env s e
      if r.2 then processEvents env r.1 rest else r.1

/-- The whole monitor task: run the loop, then execute the unconditional
bridge removal that follows the loop (`spawn_agent.rs` lines 558-560). -/
def runMonitor (env : MonitorEnv) (events : List MonitorEvent) : MonitorState :=
  let final := processEvents env (initMonitorState env) events
  { final with registry := registryRemove env.convId final.registry }

/-- Terminal events: the three arms of the loop that `break`. -/
def isTerminalEvent : ChildEventMsg → Bool
  | .taskComplete _ => true
  | .errorEvent _ => true
  | .turnAborted _ => true
  | _ => false

/-- Leaf JSON values occurring in the tool results under study. -/
inductive JsonLeaf where
  | jstr (s : String)
  | jbool (b : Bool)
  deriving Repr, DecidableEq

/-- Content of a `ToolOutput::Function`: either a serialized flat JSON
object (kept as its field list) or plain text. -/
inductive ToolContent where
  | json (fields : List (String × JsonLeaf))
  | text (s : String)
  deriving Repr, DecidableEq

/-- A `ToolOutput::Function` value: content plus the `success` flag. -/
structure ToolOutputFn where
  content : ToolContent
  success : Option Bool
  deriving Repr, DecidableEq

/-- The tool result the `spawn_agent` handler builds from the outcome
channel, `spawn_agent.rs` lines 566-586: `none` models the oneshot channel
closing without a value. -/
def spawnAgentResult (taskId : String) (outcome : Option SubagentOutcome) : ToolOutputFn :=
  match outcome with
  | some o =>
      { content := ToolContent.json
          [("agent_id", JsonLeaf.jstr taskId),
           ("status", JsonLeaf.jstr (if o.success then "completed" else "failed")),
           ("markdown_summary", JsonLeaf.jstr o.markdown),
           ("injected_into_turn", JsonLeaf.jbool o.injectedIntoTurn)]
        success := some o.success }
  | none =>
      { content := ToolContent.text
          ("## Subagent `" ++ taskId ++
            "` did not report a result\n\nThe child agent terminated without a final outcome.")
        success := some false }

/-- Parsed `return_progress` arguments,
`codex-rs/core/src/tools/handlers/return_progress.rs` lines 15-22. -/
structure ReturnProgressArgs where
  task_id : Option String
  progress : String
  is_final : Bool
  deriving Repr, DecidableEq

/-- View of a registered bridge as `return_progress` reads it:
identifier fields of `ChildAgentBridge` plus its mutable state. -/
structure BridgeView where
  agent_id : String
  parent_sub_id : String
  state : BridgeState
  deriving Repr, DecidableEq

/-- Error message at `return_progress.rs` lines 58-62 (the spec's
`NotASubagent`). -/
def notASubagentMsg : String := "return_progress can only be used by active subagents"

/-- Error message at `return_progress.rs` lines 64-70 (the spec's
`WrongAgent`). -/
def wrongAgentMsg (taskId agentId : String) : String :=
  "return_progress task_id `" ++ taskId ++ "` does not match active agent `" ++ agentId ++ "`"

/-- Error message at `return_progress.rs` lines 73-77 (the spec's
`ParentGone`). -/
def parentGoneMsg : String := "The parent agent is no longer active for this subagent"

/-- Result of a successful `return_progress` call: the bridge state after
the writes, the `AgentProgress` event sent to the parent, and the tool
output. -/
structure ReturnProgressOk where
  bridgeState : BridgeState
  event : EmittedEvent
  output : ToolOutputFn
  deriving Repr, DecidableEq

/-- Continuation of `return_progress` after the bridge and task-id checks,
`return_progress.rs` lines 73-102: resolve the parent, write
`last_progress` (and `final_markdown` when `is_final`), emit
`AgentProgress` under `parent_sub_id`, return `{status: "ok", is_final}`. -/
def returnProgressRun (args : ReturnProgressArgs) (b : BridgeView)
    (parentAlive : Bool) : Except String ReturnProgressOk :=
  if parentAlive then
    Except.ok
      { bridgeState :=
          { lastProgress := some args.progress
            finalMarkdown := if args.is_final then some args.progress else b.state.finalMarkdown }
        event := EmittedEvent.agentProgress b.parent_sub_id b.agent_id args.progress
        output :=
          { content := ToolContent.json
              [("status", JsonLeaf.jstr "ok"), ("is_final", JsonLeaf.jbool args.is_final)]
            success := some true } }
  else
    Except.error parentGoneMsg

/-- The `return_progress` handler, `return_progress.rs` lines 30-103.
`bridge` is the registry lookup for the calling conversation's id;
`parentAlive` is whether the bridge's weak parent reference upgrades. -/
def returnProgressHandle (args : ReturnProgressArgs) (bridge : Option BridgeView)
    (parentAlive : Bool) : Except String ReturnProgressOk :=
  match bridge with
  | none => Except.error notASubagentMsg
  | some b =>
      match args.task_id with
      | some tid =>
          if tid ≠ b.agent_id then Except.error (wrongAgentMsg tid b.agent_id)
          else returnProgressRun args b parentAlive
      | none => returnProgressRun args b parentAlive

/-- `ProfileSelector::select_profile`,
`codex-rs/orchestrator/src/profiles.rs` lines 19-28. -/
def select_profile (availableProfiles : List String) (requested : Option String) :
    Option String :=
  match requested with
  | some req =>
      if availableProfiles.contains req then some req
      else availableProfiles.head?
  | none => availableProfiles.head?

/-- Modelled from the spec's words (§4.7.1): `fallback = accumulated_output`
if non-empty, else `last_message` (the event's) if present, else
`last_agent_message` (the monitor's) if present, else the fixed sentence.
Used only to compare against the source-derived `taskCompleteFallback`. -/
def specTaskCompleteFallback (accumulated : String)
    (eventLastMessage monitorLastMessage : Option String) : String :=
  if accumulated = "" then
    match eventLastMessage with
    | some m => m
    | none =>
        match monitorLastMessage with
        | some m => m
        | none => "Child agent completed without returning a message."
  else accumulated

theorem charUtf8Len_pos (c : Char) : 1 ≤ charUtf8Len c := by
  unfold charUtf8Len
  repeat' split
  all_goals omega

theorem length_le_sum_charUtf8Len (l : List Char) :
    l.length ≤ (l.map charUtf8Len).sum := by
  induction l with
  | nil => simp
  | cons c cs ih =>
      simp only [List.map_cons, List.sum_cons, List.length_cons]
      have := charUtf8Len_pos c
      omega

theorem length_le_utf8Len (s : String) : s.length ≤ utf8Len s :=
  length_le_sum_charUtf8Len s.data

theorem sum_charUtf8Len_ascii (l : List Char) (h : ∀ c ∈ l, c.toNat < 128) :
    (l.map charUtf8Len).sum = l.length := by
  induction l with
  | nil => simp
  | cons c cs ih =>
      have hc : charUtf8Len c = 1 := by
        unfold charUtf8Len
        rw [if_pos (h c (by simp))]
      simp only [List.map_cons, List.sum_cons, List.length_cons, hc]
      rw [ih (fun x hx => h x (by simp [hx]))]
      omega

theorem mk_data_eq (s : String) : String.mk s.data = s := by
  cases s
  rfl

theorem mem_of_head?_eq {α : Type} {l : List α} {a : α} (h : l.head? = some a) :
    a ∈ l := by
  cases l with
  | nil => simp at h
  | cons x xs =>
      simp only [List.head?_cons, Option.some.injEq] at h
      simp [h]

/-- C9 counterexample: the token charge is computed from the UTF-8 byte
length, and for `"ééé"` (three 2-byte scalars) it differs from the ceiling
of the character count divided by 4: the byte-based charge is 2, the
char-based value 1.  So the claim's byte/char agreement is false. -/
theorem c9_estimate_tokens_char_count_counterexample :
    estimate_tokens "ééé" ≠ (("ééé".length) + 3) / 4 := by
  decide

/-- C9 (amended): every fragment is charged `ceil(byte_len / 4)` tokens
where `byte_len` is its UTF-8 byte length; this agrees with the ceiling of
the character count divided by 4 whenever the fragment is pure ASCII
(every scalar below 128), but not in general. -/
theorem c9_estimate_tokens_byte_ceil (s : String)
    (hascii : ∀ c ∈ s.data, c.toNat < 128) :
    estimate_tokens s = (utf8Len s + 3) / 4 ∧
      estimate_tokens s = (s.length + 3) / 4 := by
  refine ⟨rfl, ?_⟩
  unfold estimate_tokens utf8Len
  rw [sum_charUtf8Len_ascii s.data hascii]
  rfl

/-- C9 witness: the amended statement evaluated at the ASCII string
`"hello"`, whose charge is 2 tokens either way. -/
theorem c9_estimate_tokens_byte_ceil_witness :
    estimate_tokens "hello" = ("hello".length + 3) / 4 :=
  (c9_estimate_tokens_byte_ceil "hello" (by decide)).2

/-- C10: `select_profile` returns the requested profile exactly when it is
among the available profiles; an absent requested profile silently falls
back to the first available one; `none` is returned only when no profiles
are available, and no error is ever reported (the return type has no error
case). -/
theorem c10_select_profile_spec (avail : List String) (req : Option String) :
    (∀ r, req = some r → (select_profile avail req = some r ↔ r ∈ avail)) ∧
    (∀ r, req = some r → r ∉ avail → select_profile avail req = avail.head?) ∧
    (select_profile avail req = none ↔ avail = []) := by
  refine ⟨?_, ?_, ?_⟩
  · intro r hreq
    subst hreq
    simp only [select_profile]
    by_cases h : r ∈ avail
    · simp [h]
    · rw [if_neg (by simpa using h)]
      constructor
      · intro hh
        exact absurd (mem_of_head?_eq hh) h
      · intro hh
        exact absurd hh h
  · intro r hreq hnot
    subst hreq
    simp only [select_profile]
    rw [if_neg (by simpa using hnot)]
  · cases req with
    | none =>
        simp only [select_profile]
        cases avail <;> simp
    | some r =>
        simp only [select_profile]
        by_cases h : r ∈ avail
        · simp [h]
          intro he
          subst he
          simp at h
        · rw [if_neg (by simpa using h)]
          cases avail <;> simp

/-- C10 witness: with profiles `["p1", "p2"]`, requesting the missing
`"zz"` falls back to `"p1"`, and requesting the installed `"p2"` returns
it. -/
theorem c10_select_profile_spec_witness :
    select_profile ["p1", "p2"] (some "zz") = (["p1", "p2"] : List String).head? ∧
      select_profile ["p1", "p2"] (some "p2") = some "p2" :=
  ⟨(c10_select_profile_spec ["p1", "p2"] (some "zz")).2.1 "zz" rfl (by decide),
   ((c10_select_profile_spec ["p1", "p2"] (some "p2")).1 "p2" rfl).mpr (by decide)⟩

theorem lastChars_of_le {s : String} {n : Nat} (h : s.length ≤ n) :
    lastChars s n = s := by
  unfold lastChars
  rw [List.take_of_length_le (by simpa using h), List.reverse_reverse]

theorem snippet_byte_eq_snippet_char (b : String) :
    (if utf8Len b > 400 then lastChars b 400 else b) =
      (if b.length > 400 then lastChars b 400 else b) := by
  by_cases hc : b.length > 400
  · rw [if_pos (lt_of_lt_of_le hc (length_le_utf8Len b)), if_pos hc]
  · rw [if_neg hc]
    by_cases hb : utf8Len b > 400
    · rw [if_pos hb]
      exact lastChars_of_le (by omega)
    · rw [if_neg hb]

theorem offerDelta_eq (st : ThrottleState) (d : String) (now : Nat) :
    offerDelta st d now =
      if hasNewline (st.buffer ++ d) = true ∨ utf8Len (st.buffer ++ d) > 500 ∨
          900 ≤ now - st.lastEmit then
        (some (if utf8Len (st.buffer ++ d) > 400 then lastChars (st.buffer ++ d) 400
               else st.buffer ++ d),
          { buffer := "", lastEmit := now })
      else
        (none, { buffer := st.buffer ++ d, lastEmit := st.lastEmit }) := by
  simp only [offerDelta]
  by_cases h : hasNewline (st.buffer ++ d) = true ∨ utf8Len (st.buffer ++ d) > 500 ∨
      900 ≤ now - st.lastEmit
  · have hb : (hasNewline (st.buffer ++ d) ||
        decide (utf8Len (st.buffer ++ d) > 500) || decide (900 ≤ now - st.lastEmit)) = true := by
      rcases h with h | h | h <;> simp [h]
    rw [if_pos hb, if_pos h]
  · have hb : ¬((hasNewline (st.buffer ++ d) ||
        decide (utf8Len (st.buffer ++ d) > 500) || decide (900 ≤ now - st.lastEmit)) = true) := by
      simpa [Bool.or_eq_true, decide_eq_true_eq, or_assoc] using h
    rw [if_neg hb, if_neg h]

/-- C8: the throttler emits on an offered delta iff, after appending the
delta, the buffer holds a newline, or its (byte) length exceeds 500, or at
least 900 ms elapsed since the last emission; the emitted text is the last
400 characters of the buffer when the buffer is longer than 400 characters
and the whole buffer otherwise, after which the buffer is cleared and
`last_emit` set to the current instant; without an emission the buffer
keeps the appended delta and `last_emit` is unchanged. -/
theorem c8_progress_throttler_spec (st : ThrottleState) (d : String) (now : Nat) :
    ((offerDelta st d now).1.isSome = true ↔
      (hasNewline (st.buffer ++ d) = true ∨ utf8Len (st.buffer ++ d) > 500 ∨
        900 ≤ now - st.lastEmit)) ∧
    (∀ e, (offerDelta st d now).1 = some e →
      e = (if (st.buffer ++ d).length > 400 then lastChars (st.buffer ++ d) 400
           else st.buffer ++ d) ∧
        (offerDelta st d now).2 = { buffer := "", lastEmit := now }) ∧
    ((offerDelta st d now).1 = none →
      (offerDelta st d now).2 = { buffer := st.buffer ++ d, lastEmit := st.lastEmit }) := by
  rw [offerDelta_eq]
  by_cases h : hasNewline (st.buffer ++ d) = true ∨ utf8Len (st.buffer ++ d) > 500 ∨
      900 ≤ now - st.lastEmit
  · rw [if_pos h]
    refine ⟨by simpa using h, ?_, by simp⟩
    intro e he
    simp only [Option.some.injEq] at he
    subst he
    exact ⟨(snippet_byte_eq_snippet_char (st.buffer ++ d)).symm ▸ rfl, rfl⟩
  · rw [if_neg h]
    refine ⟨by simpa using h, ?_, fun _ => rfl⟩
    intro e he
    simp at he

/-- C8 witness: offering `"hi\n"` to an empty throttler flushes because of
the newline, emits the whole (short) buffer, clears it and records the
instant. -/
theorem c8_progress_throttler_spec_witness :
    (offerDelta { buffer := "", lastEmit := 0 } "hi\n" 5).1 = some "hi\n" ∧
      (offerDelta { buffer := "", lastEmit := 0 } "hi\n" 5).2 =
        { buffer := "", lastEmit := 5 } := by
  have h := (c8_progress_throttler_spec { buffer := "", lastEmit := 0 } "hi\n" 5).2.1
    "hi\n" (by decide)
  exact ⟨by decide, h.2⟩

theorem takeChars_append_drop (d : String) (n : Nat) :
    takeChars d n ++ String.mk (d.data.drop n) = d := by
  unfold takeChars
  calc String.mk (d.data.take n) ++ String.mk (d.data.drop n)
      = String.mk (d.data.take n ++ d.data.drop n) := rfl
    _ = String.mk d.data := by rw [List.take_append_drop]
    _ = d := mk_data_eq d

/-- C5: when an untruncated budget state would be pushed past the
5000-token cap by a delta, `admitDelta` appends the character-count sliced
head of the delta (`remaining_tokens * 4` characters) followed by exactly
one truncation marker, sets `truncated`, and leaves `used_tokens` equal to
the cap; the appended head is a character-wise initial segment of the
delta. -/
theorem c5_admitDelta_overflow_spec (b : BudgetState) (d : String)
    (hnt : b.truncated = false)
    (hover : OUTPUT_TOKEN_LIMIT < b.tokenCount + estimate_tokens d) :
    admitDelta b d =
      (takeChars d ((OUTPUT_TOKEN_LIMIT - b.tokenCount) * 4) ++ truncMarker,
        { accumulated := b.accumulated ++
            (takeChars d ((OUTPUT_TOKEN_LIMIT - b.tokenCount) * 4) ++ truncMarker)
          tokenCount := OUTPUT_TOKEN_LIMIT
          truncated := true
          markerAppends := b.markerAppends + 1 }) ∧
    (∃ rest, takeChars d ((OUTPUT_TOKEN_LIMIT - b.tokenCount) * 4) ++ rest = d) := by
  constructor
  · simp only [admitDelta]
    rw [if_neg (by simp [hnt]), if_neg (by omega)]
    by_cases hrc : (OUTPUT_TOKEN_LIMIT - b.tokenCount) * 4 > 0
    · rw [if_pos hrc]
    · rw [if_neg hrc]
      have h0 : (OUTPUT_TOKEN_LIMIT - b.tokenCount) * 4 = 0 := by omega
      rw [h0]
      rfl
  · exact ⟨String.mk (d.data.drop ((OUTPUT_TOKEN_LIMIT - b.tokenCount) * 4)),
      takeChars_append_drop d _⟩

/-- C5 witness: with 4999 of 5000 tokens used, the ten-byte delta
`"abcdefghij"` overflows; the remaining budget is one token, so four
characters are kept and the marker appended, with the counter saturated at
the cap. -/
theorem c5_admitDelta_overflow_spec_witness :
    admitDelta
        { accumulated := "seen", tokenCount := 4999, truncated := false, markerAppends := 0 }
        "abcdefghij" =
      (takeChars "abcdefghij" ((OUTPUT_TOKEN_LIMIT - 4999) * 4) ++ truncMarker,
        { accumulated := "seen" ++
            (takeChars "abcdefghij" ((OUTPUT_TOKEN_LIMIT - 4999) * 4) ++ truncMarker)
          tokenCount := OUTPUT_TOKEN_LIMIT
          truncated := true
          markerAppends := 1 }) :=
  (c5_admitDelta_overflow_spec
    { accumulated := "seen", tokenCount := 4999, truncated := false, markerAppends := 0 }
    "abcdefghij" rfl (by decide)).1

theorem admitDelta_marker_inv (b : BudgetState) (d : String)
    (h : (b.truncated = false ∧ b.markerAppends = 0) ∨
      (b.truncated = true ∧ b.markerAppends = 1)) :
    ((admitDelta b d).2.truncated = false ∧ (admitDelta b d).2.markerAppends = 0) ∨
      ((admitDelta b d).2.truncated = true ∧ (admitDelta b d).2.markerAppends = 1) := by
  rcases h with ⟨hf, hm⟩ | ⟨ht, hm⟩
  · simp only [admitDelta]
    rw [if_neg (by simp [hf])]
    by_cases hfit : b.tokenCount + estimate_tokens d ≤ OUTPUT_TOKEN_LIMIT
    · rw [if_pos hfit]
      exact Or.inl ⟨hf, hm⟩
    · rw [if_neg hfit]
      exact Or.inr ⟨rfl, by rw [hm]⟩
  · simp only [admitDelta]
    rw [if_pos ht]
    exact Or.inr ⟨ht, hm⟩

theorem admitMessage_marker_inv (b : BudgetState) (m : String)
    (h : (b.truncated = false ∧ b.markerAppends = 0) ∨
      (b.truncated = true ∧ b.markerAppends = 1)) :
    ((admitMessage b m).2.truncated = false ∧ (admitMessage b m).2.markerAppends = 0) ∨
      ((admitMessage b m).2.truncated = true ∧ (admitMessage b m).2.markerAppends = 1) := by
  rcases h with ⟨hf, hm⟩ | ⟨ht, hm⟩
  · simp only [admitMessage]
    rw [if_neg (by simp [hf])]
    by_cases hfit : b.tokenCount + estimate_tokens m ≤ OUTPUT_TOKEN_LIMIT
    · rw [if_pos hfit]
      exact Or.inl ⟨hf, hm⟩
    · rw [if_neg hfit]
      exact Or.inr ⟨rfl, by rw [hm]⟩
  · simp only [admitMessage]
    rw [if_pos ht]
    exact Or.inr ⟨ht, hm⟩

theorem stepEvent_marker_inv (env : MonitorEnv) (s : MonitorState) (e : MonitorEvent)
    (h : (s.budget.truncated = false ∧ s.budget.markerAppends = 0) ∨
      (s.budget.truncated = true ∧ s.budget.markerAppends = 1)) :
    ((stepEvent env s e).1.budget.truncated = false ∧
        (stepEvent env s e).1.budget.markerAppends = 0) ∨
      ((stepEvent env s e).1.budget.truncated = true ∧
        (stepEvent env s e).1.budget.markerAppends = 1) := by
  obtain ⟨msg, now⟩ := e
  cases msg with
  | taskStarted => simpa [stepEvent, emitProgressEv] using h
  | agentMessageDelta d =>
      have h2 := admitDelta_marker_inv s.budget d h
      cases hf : (offerDelta s.throttle d now).1 with
      | none => simpa [stepEvent, emitProgressEv, hf] using h2
      | some snip => simpa [stepEvent, emitProgressEv, hf] using h2
  | agentMessage m =>
      simpa [stepEvent, emitProgressEv] using admitMessage_marker_inv s.budget m h
  | execCommandBegin cmd cwd => simpa [stepEvent, emitProgressEv] using h
  | execCommandEnd code => simpa [stepEvent, emitProgressEv] using h
  | mcpToolCallBegin server tool => simpa [stepEvent, emitProgressEv] using h
  | mcpToolCallEnd server tool ok => simpa [stepEvent, emitProgressEv] using h
  | tokenCount pct => cases pct <;> simpa [stepEvent, emitProgressEv] using h
  | taskComplete lam =>
      cases hio : env.injectOk <;> simpa [stepEvent, finishTerminal, hio] using h
  | errorEvent msg =>
      cases hio : env.injectOk <;> simpa [stepEvent, finishTerminal, hio] using h
  | turnAborted reason =>
      cases hio : env.injectOk <;> simpa [stepEvent, finishTerminal, hio] using h
  | otherEvent => simpa [stepEvent, emitProgressEv] using h

theorem processEvents_marker_inv (env : MonitorEnv) (events : List MonitorEvent)
    (s : MonitorState)
    (h : (s.budget.truncated = false ∧ s.budget.markerAppends = 0) ∨
      (s.budget.truncated = true ∧ s.budget.markerAppends = 1)) :
    ((processEvents env s events).budget.truncated = false ∧
        (processEvents env s events).budget.markerAppends = 0) ∨
      ((processEvents env s events).budget.truncated = true ∧
        (processEvents env s events).budget.markerAppends = 1) := by
  induction events generalizing s with
  | nil => simpa [processEvents] using h
  | cons e rest ih =>
      simp only [processEvents]
      by_cases hc : (stepEvent env s e).2 = true
      · rw [if_pos hc]
        exact ih _ (stepEvent_marker_inv env s e h)
      · rw [if_neg hc]
        exact stepEvent_marker_inv env s e h

/-- C1: once the budgeter's `truncated` flag is set, every further
`admitDelta`/`admitMessage` call returns the empty string and leaves the
state (hence the accumulated output) untouched; and over any monitor run
the truncation marker is appended to the assembled output exactly once
when truncation occurred and never otherwise — in particular a single
over-sized first delta yields one marker and no further admitted text. -/
theorem c1_truncated_is_silent_single_marker :
    (∀ b d, b.truncated = true → admitDelta b d = ("", b)) ∧
    (∀ b m, b.truncated = true → admitMessage b m = ("", b)) ∧
    (∀ env events, (runMonitor env events).budget.markerAppends =
      (if (runMonitor env events).budget.truncated = true then 1 else 0)) := by
  refine ⟨?_, ?_, ?_⟩
  · intro b d ht
    simp only [admitDelta]
    rw [if_pos ht]
  · intro b m ht
    simp only [admitMessage]
    rw [if_pos ht]
  · intro env events
    have h := processEvents_marker_inv env events (initMonitorState env)
      (Or.inl ⟨rfl, rfl⟩)
    have hb : (runMonitor env events).budget =
        (processEvents env (initMonitorState env) events).budget := rfl
    rw [hb]
    rcases h with ⟨ht, hm⟩ | ⟨ht, hm⟩
    · rw [ht, hm]
      simp
    · rw [ht, hm]
      simp

/-- C1 witness: in a saturated state both admit functions return the empty
string and change nothing. -/
theorem c1_truncated_is_silent_single_marker_witness :
    admitDelta
        { accumulated := "x", tokenCount := 5000, truncated := true, markerAppends := 1 }
        "more" =
      ("", { accumulated := "x", tokenCount := 5000, truncated := true, markerAppends := 1 }) ∧
    admitMessage
        { accumulated := "x", tokenCount := 5000, truncated := true, markerAppends := 1 }
        "tail" =
      ("", { accumulated := "x", tokenCount := 5000, truncated := true, markerAppends := 1 }) :=
  ⟨c1_truncated_is_silent_single_marker.1 _ "more" rfl,
   c1_truncated_is_silent_single_marker.2.1 _ "tail" rfl⟩

/-- C2: on `TaskComplete` the summary body is the bridge's
`final_markdown` when set, else the fallback, where the source fallback
coincides with the spec's priority chain (accumulated output if non-empty,
else the event's last message, else the monitor's last `AgentMessage`,
else the fixed sentence); and afterwards the bridge's `final_markdown`
always holds the chosen body (set when it was unset, already equal
otherwise). -/
theorem c2_taskComplete_body_spec (acc : String) (el ml bf : Option String) :
    (taskCompleteBody bf (taskCompleteFallback acc el ml) =
      (match bf with
       | some m => m
       | none => specTaskCompleteFallback acc el ml)) ∧
    (taskCompleteNewFinal bf (taskCompleteBody bf (taskCompleteFallback acc el ml)) =
      some (taskCompleteBody bf (taskCompleteFallback acc el ml))) := by
  constructor
  · cases bf with
    | some m => rfl
    | none =>
        show taskCompleteFallback acc el ml = specTaskCompleteFallback acc el ml
        unfold taskCompleteFallback specTaskCompleteFallback
        by_cases ha : acc = ""
        · rw [if_neg (not_not_intro ha), if_pos ha]
          cases el with
          | some m => rfl
          | none =>
              cases ml with
              | some m => rfl
              | none => rfl
        · rw [if_pos ha, if_neg ha]
  · cases bf with
    | some m => rfl
    | none => rfl

theorem heading_suffix_ne (id : String) :
    ("### Subagent `" ++ id ++ "` ✅" : String) ≠
      "### Subagent `" ++ id ++ "` ✅" ++ " (output truncated to 5k tokens)" := by
  intro hcontra
  have hlen := congrArg String.length hcontra
  simp only [String.length_append] at hlen
  have hpos : 0 < (" (output truncated to 5k tokens)" : String).length := by decide
  omega

theorem heading_split (id : String) :
    ("### Subagent `" ++ id ++ "` ✅ (output truncated to 5k tokens)" : String) =
      "### Subagent `" ++ id ++ "` ✅" ++ " (output truncated to 5k tokens)" := by
  rw [String.append_assoc, String.append_assoc]
  rfl

/-- C6: the success heading carries the suffix
`" (output truncated to 5k tokens)"` exactly when the monitor observed
truncation and the bridge carried no `final_markdown` at completion time,
and is exactly the plain heading otherwise. -/
theorem c6_heading_policy_spec (id : String) (t : Bool) (bf : Option String) :
    (taskCompleteHeading id t bf =
        "### Subagent `" ++ id ++ "` ✅" ++ " (output truncated to 5k tokens)" ↔
      (t = true ∧ bf = none)) ∧
    (taskCompleteHeading id t bf = "### Subagent `" ++ id ++ "` ✅" ↔
      ¬(t = true ∧ bf = none)) := by
  by_cases hcond : t = true ∧ bf = none
  · have hb : (t && bf.isNone) = true := by
      rcases hcond with ⟨h1, h2⟩
      simp [h1, h2]
    unfold taskCompleteHeading
    rw [if_pos hb, heading_split]
    constructor
    · exact ⟨fun _ => hcond, fun _ => rfl⟩
    · constructor
      · intro habs
        exact absurd habs.symm (heading_suffix_ne id)
      · intro hn
        exact absurd hcond hn
  · have hb : (t && bf.isNone) = false := by
      cases t with
      | false => rfl
      | true =>
          cases bf with
          | none => exact absurd ⟨rfl, rfl⟩ hcond
          | some m => rfl
    unfold taskCompleteHeading
    rw [if_neg (by simp [hb])]
    constructor
    · constructor
      · intro habs
        exact absurd habs (heading_suffix_ne id)
      · intro hc
        exact absurd hc hcond
    · constructor
      · intro _
        exact hcond
      · intro _
        rfl

/-- C3: the child's bridge is removed from the registry on every exit of
the monitor loop — after a whole run (which covers the stream closing
without a terminal event, via the unconditional removal after the loop),
and already within the step that processes any terminal event
(`TaskComplete`, `Error`, `TurnAborted`). -/
theorem c3_bridge_removed_on_exit :
    (∀ env events, env.convId ∉ (runMonitor env events).registry) ∧
    (∀ env (s : MonitorState) (e : MonitorEvent), isTerminalEvent e.msg = true →
      env.convId ∉ (stepEvent env s e).1.registry) := by
  constructor
  · intro env events
    show env.convId ∉
      registryRemove env.convId (processEvents env (initMonitorState env) events).registry
    simp [registryRemove, List.mem_filter]
  · intro env s e ht
    obtain ⟨msg, now⟩ := e
    cases msg
    case taskComplete lam =>
      cases hio : env.injectOk <;>
        simp [stepEvent, finishTerminal, hio, registryRemove, List.mem_filter]
    case errorEvent m =>
      cases hio : env.injectOk <;>
        simp [stepEvent, finishTerminal, hio, registryRemove, List.mem_filter]
    case turnAborted r =>
      cases hio : env.injectOk <;>
        simp [stepEvent, finishTerminal, hio, registryRemove, List.mem_filter]
    all_goals simp [isTerminalEvent] at ht

/-- C3 witness: a `TaskComplete` step removes conversation id 7 from a
registry that contained it. -/
theorem c3_bridge_removed_on_exit_witness :
    (7 : Nat) ∉ (stepEvent
      { agentId := "a", parentSubId := "sub", convId := 7, injectOk := true,
        startRegistry := [7], startTime := 0 }
      (initMonitorState
        { agentId := "a", parentSubId := "sub", convId := 7, injectOk := true,
          startRegistry := [7], startTime := 0 })
      { msg := ChildEventMsg.taskComplete none, now := 0 }).1.registry :=
  c3_bridge_removed_on_exit.2 _ _ _ rfl

/-- C4: `return_progress` fails with the `NotASubagent` message when the
caller has no registered bridge, with the `WrongAgent` message when a
supplied `task_id` differs from the bridge's `agent_id`, and with the
`ParentGone` message when the parent cannot be resolved; otherwise it sets
`last_progress` to the progress string, sets `final_markdown` to that
string exactly when `is_final` (leaving it untouched otherwise), emits an
`AgentProgress` event under `parent_sub_id`, and returns
`{status: "ok", is_final}` with success. -/
theorem c4_return_progress_spec (args : ReturnProgressArgs)
    (bOpt : Option BridgeView) (alive : Bool) :
    (bOpt = none → returnProgressHandle args bOpt alive = Except.error notASubagentMsg) ∧
    (∀ b tid, bOpt = some b → args.task_id = some tid → tid ≠ b.agent_id →
      returnProgressHandle args bOpt alive = Except.error (wrongAgentMsg tid b.agent_id)) ∧
    (∀ b, bOpt = some b → (args.task_id = none ∨ args.task_id = some b.agent_id) →
      alive = false → returnProgressHandle args bOpt alive = Except.error parentGoneMsg) ∧
    (∀ b, bOpt = some b → (args.task_id = none ∨ args.task_id = some b.agent_id) →
      alive = true →
      returnProgressHandle args bOpt alive = Except.ok
        { bridgeState :=
            { lastProgress := some args.progress
              finalMarkdown :=
                if args.is_final then some args.progress else b.state.finalMarkdown }
          event := EmittedEvent.agentProgress b.parent_sub_id b.agent_id args.progress
          output :=
            { content := ToolContent.json
                [("status", JsonLeaf.jstr "ok"), ("is_final", JsonLeaf.jbool args.is_final)]
              success := some true } }) := by
  refine ⟨?_, ?_, ?_, ?_⟩
  · intro h
    subst h
    rfl
  · intro b tid hb htid hne
    subst hb
    simp only [returnProgressHandle, htid]
    rw [if_pos hne]
  · intro b hb htask hal
    subst hb
    subst hal
    rcases htask with h | h <;> simp [returnProgressHandle, h, returnProgressRun]
  · intro b hb htask hal
    subst hb
    subst hal
    rcases htask with h | h <;> simp [returnProgressHandle, h, returnProgressRun]

/-- C4 witness: a matching `task_id` with a live parent succeeds, records
the progress, sets `final_markdown` because `is_final`, and emits the
event under the bridge's `parent_sub_id`. -/
theorem c4_return_progress_spec_witness :
    returnProgressHandle { task_id := some "a", progress := "p", is_final := true }
      (some { agent_id := "a", parent_sub_id := "sub",
              state := { lastProgress := none, finalMarkdown := none } })
      true =
      Except.ok
        { bridgeState := { lastProgress := some "p", finalMarkdown := some "p" }
          event := EmittedEvent.agentProgress "sub" "a" "p"
          output :=
            { content := ToolContent.json
                [("status", JsonLeaf.jstr "ok"), ("is_final", JsonLeaf.jbool true)]
              success := some true } } :=
  (c4_return_progress_spec { task_id := some "a", progress := "p", is_final := true }
    (some { agent_id := "a", parent_sub_id := "sub",
            state := { lastProgress := none, finalMarkdown := none } })
    true).2.2.2 _ rfl (Or.inr rfl) rfl

/-- C7: when the outcome channel closes without a value the `spawn_agent`
tool returns a failure (`success = some false`) whose text content begins
with the markdown heading "## Subagent `X` did not report a result"; when
an outcome arrives it returns the structured JSON payload with fields
`agent_id`, `status` (`"completed"` iff the outcome succeeded, else
`"failed"`), `markdown_summary` and `injected_into_turn`, with the
outcome's success flag. -/
theorem c7_spawn_result_spec (id : String) (o : SubagentOutcome) :
    ((spawnAgentResult id none).success = some false) ∧
    (∃ rest, (spawnAgentResult id none).content =
      ToolContent.text (("## Subagent `" ++ id ++ "` did not report a result") ++ rest)) ∧
    ((spawnAgentResult id (some o)).success = some o.success) ∧
    ((spawnAgentResult id (some o)).content = ToolContent.json
      [("agent_id", JsonLeaf.jstr id),
       ("status", JsonLeaf.jstr (if o.success then "completed" else "failed")),
       ("markdown_summary", JsonLeaf.jstr o.markdown),
       ("injected_into_turn", JsonLeaf.jbool o.injectedIntoTurn)]) ∧
    ((if o.success then "completed" else "failed") = "completed" ↔ o.success = true) := by
  refine ⟨rfl, ⟨"\n\nThe child agent terminated without a final outcome.", ?_⟩, rfl, rfl, ?_⟩
  · show ToolContent.text _ = ToolContent.text _
    congr 1
    conv_rhs => rw [String.append_assoc]
    rfl
  · cases hos : o.success with
    | false =>
        constructor
        · intro habs
          exact absurd habs (by decide)
        · intro habs
          exact absurd habs (by simp)
    | true =>
        constructor
        · intro _
          rfl
        · intro _
          rfl

/-- For the record: the standalone `OutputTruncator` behaves differently
from the monitor's inline budgeter once the limit is reached — it returns
the at-limit message rather than the empty string (`truncation.rs` lines
34-37, exercised by its own multiple-calls test). -/
theorem outputTruncator_at_limit (t : OutputTruncator) (c : String)
    (h : t.limit ≤ t.accumulatedTokens) :
    t.truncate_if_needed c = (atLimitMessage, true, t) := by
  simp only [OutputTruncator.truncate_if_needed]
  rw [if_pos h]
